import Mathlib

-- Formal model of the plugin execution core of the Gauntlet launcher.
-- The definitions below are a shallow embedding of the Rust sources:
--   src/src/react_side.rs                              (scripting host, host ops, wire types)
--   src/rust/server/src/plugins/mod.rs                 (ApplicationManager)
--   src/rust/server/src/plugins/data_db_repository.rs  (persistence)
-- Machine floats (f64) are carried verbatim by all modelled code paths and never
-- computed with, so they are represented by their 64-bit pattern as a Nat.

namespace Gauntlet

/-- Bit pattern of an f64 payload; the embedded code only moves such values around
and never performs arithmetic on them. -/
abbrev F64 := Nat

/-- Widget identifier, a u32 allocated by the UI process (type alias UiWidgetId in
react_side.rs); the embedded code treats it as fully opaque. -/
abbrev UiWidgetId := Nat

/-- Event name, a String (type alias UiEventName in react_side.rs). -/
abbrev UiEventName := String

/-- Identity of a v8 Global Function value held in the Event Handler Table. The
embedded code never inspects the function, only stores and schedules it, so an
abstract identifier is enough. -/
abbrev JsFunction := Nat

/-- Embeds enum UiPropertyValue of react_side.rs. -/
inductive UiPropertyValue where
  | function
  | string (value : String)
  | number (value : F64)
  | bool (value : Bool)
deriving DecidableEq, Repr

/-- Embeds struct UiWidget of react_side.rs. -/
structure UiWidget where
  widget_id : UiWidgetId
deriving DecidableEq, Repr

/-- Embeds enum UiRequestData of react_side.rs; the properties HashMap is modelled
as an association list. -/
inductive UiRequestData where
  | getContainer
  | createInstance (widget_type : String)
  | createTextInstance (text : String)
  | appendChild (parent child : UiWidget)
  | removeChild (parent child : UiWidget)
  | insertBefore (parent child before_child : UiWidget)
  | setProperties (widget : UiWidget) (properties : List (String × UiPropertyValue))
  | setText (widget : UiWidget) (text : String)
deriving DecidableEq, Repr

/-- Modelled from the spec: the channel crate (crate::channel) is not under src.
Per the spec, send_receive places the request on the single-producer single-consumer
queue and awaits the response slot, so awaiting make_request appends the request to
the trace of requests that reach the consumer. -/
def make_request_awaited (trace : List UiRequestData) (data : UiRequestData) : List UiRequestData :=
  trace ++ [data]

/-- Embeds op_gtk_append_child of react_side.rs: builds UiRequestData::AppendChild
and awaits make_request, so the request is placed on the channel. The trace models
the sequence of requests that reach the dbus handler loop. -/
def op_gtk_append_child (trace : List UiRequestData) (parent child : UiWidget) : List UiRequestData :=
  make_request_awaited trace (.appendChild parent child)

/-- Embeds op_gtk_remove_child of react_side.rs: builds UiRequestData::RemoveChild
and awaits make_request. -/
def op_gtk_remove_child (trace : List UiRequestData) (parent child : UiWidget) : List UiRequestData :=
  make_request_awaited trace (.removeChild parent child)

/-- Embeds op_gtk_insert_before of react_side.rs. The body builds
UiRequestData::InsertBefore and then evaluates the statement
let _ = make_request(state, data); with no .await: the future returned by
make_request is dropped without ever being polled, and a Rust future performs no
work unless polled, so send_receive never runs and no request is placed on the
channel. The trace is therefore returned unchanged. -/
def op_gtk_insert_before (trace : List UiRequestData) (parent child before_child : UiWidget) : List UiRequestData :=
  let _data : UiRequestData := .insertBefore parent child before_child
  trace

/-- Embeds the effect trace of ApplicationManager::set_plugin_state
(src/rust/server/src/plugins/mod.rs): the database write, runtime start or stop,
search index removal, and the error log of the invariant-violation arm. -/
inductive ManagerEffect where
  | setPluginEnabled (pluginId : String) (enabled : Bool)
  | startPlugin (pluginId : String)
  | stopPlugin (pluginId : String)
  | removeForPlugin (pluginId : String)
  | logInvariantViolation (pluginId : String)
deriving DecidableEq, Repr

/-- Embeds ApplicationManager::set_plugin_state as the list of effects performed by
the match on (currently_running, currently_enabled, set_enabled), in program order:
stop_plugin sends the Stop command and remove_for_plugin removes the plugin from the
search index. -/
def set_plugin_state (pluginId : String) (currentlyRunning currentlyEnabled setEnabled : Bool) :
    List ManagerEffect :=
  match currentlyRunning, currentlyEnabled, setEnabled with
  | false, false, true => [.setPluginEnabled pluginId true, .startPlugin pluginId]
  | false, true, true => [.startPlugin pluginId]
  | true, true, false =>
      [.setPluginEnabled pluginId false, .stopPlugin pluginId, .removeForPlugin pluginId]
  | true, false, _ => [.logInvariantViolation pluginId]
  | _, _, _ => []

/-- Embeds enum OnePluginCommandData of the plugin command bus
(src/rust/server/src/plugins/mod.rs usage sites). -/
inductive OnePluginCommandData where
  | runCommand (entrypoint_id : String)
  | runGeneratedCommand (entrypoint_id : String)
  | renderView (entrypoint_id : String)
  | closeView
  | handleViewEvent (widget_id : UiWidgetId) (event_name : String)
      (event_arguments : List UiPropertyValue)
  | handleKeyboardEvent (entrypoint_id : String) (key : String)
      (modifier_shift modifier_control modifier_alt modifier_meta : Bool)
  | reloadSearchIndex
  | stop
deriving DecidableEq, Repr

/-- Embeds enum AllPluginCommandData of the plugin command bus. -/
inductive AllPluginCommandData where
  | openInlineView (text : String)
deriving DecidableEq, Repr

/-- Embeds enum PluginCommand: a command addressed to one plugin or broadcast to all. -/
inductive PluginCommand where
  | one (id : String) (data : OnePluginCommandData)
  | all (data : AllPluginCommandData)
deriving DecidableEq, Repr

/-- Embeds ApplicationManager::request_search_index_reload: sends ReloadSearchIndex
addressed to the plugin. -/
def request_search_index_reload (pluginId : String) : List PluginCommand :=
  [.one pluginId .reloadSearchIndex]

/-- Outcome of mark_entrypoint_frecency: whether the warn-level log line was emitted
and which commands were sent. The function itself never fails. -/
structure MarkFrecencyOutcome where
  warned : Bool
  commands : List PluginCommand
deriving DecidableEq, Repr

/-- Embeds ApplicationManager::mark_entrypoint_frecency. The result of the
database call db_repository.mark_entrypoint_frecency is passed in as dbResult;
an Err result is only logged at warn level, and request_search_index_reload is
performed afterwards in both cases. -/
def mark_entrypoint_frecency (pluginId entrypointId : String)
    (dbResult : Except String Unit) : MarkFrecencyOutcome :=
  { warned := match dbResult with | .error _ => true | .ok _ => false
    commands := request_search_index_reload pluginId }

/-- Embeds ApplicationManager::handle_run_command as the trace of commands sent:
the RunCommand command, then whatever mark_entrypoint_frecency sends. The function
is total: a frecency database failure is not propagated. -/
def handle_run_command (pluginId entrypointId : String)
    (frecencyDbResult : Except String Unit) : List PluginCommand :=
  PluginCommand.one pluginId (.runCommand entrypointId)
    :: (mark_entrypoint_frecency pluginId entrypointId frecencyDbResult).commands

/-- Embeds ApplicationManager::handle_run_generated_command, as handle_run_command. -/
def handle_run_generated_command (pluginId entrypointId : String)
    (frecencyDbResult : Except String Unit) : List PluginCommand :=
  PluginCommand.one pluginId (.runGeneratedCommand entrypointId)
    :: (mark_entrypoint_frecency pluginId entrypointId frecencyDbResult).commands

/-- Embeds ApplicationManager::handle_render_view, as handle_run_command. -/
def handle_render_view (pluginId entrypointId : String)
    (frecencyDbResult : Except String Unit) : List PluginCommand :=
  PluginCommand.one pluginId (.renderView entrypointId)
    :: (mark_entrypoint_frecency pluginId entrypointId frecencyDbResult).commands

/-- Models EventHandlersInner.listeners of react_side.rs, the nested
HashMap from widget id to a HashMap from event name to a v8 function, extensionally
as a curried lookup. -/
def EventHandlerTable := UiWidgetId → UiEventName → Option JsFunction

/-- Embeds EventHandlers::new: an empty table. -/
def EventHandlerTable.empty : EventHandlerTable := fun _ _ => none

/-- Embeds EventHandlers::add_listener:
listeners.entry(widget).or_default().insert(event_name, function). -/
def add_listener (t : EventHandlerTable) (widget : UiWidgetId) (eventName : UiEventName)
    (f : JsFunction) : EventHandlerTable :=
  fun w n => if w = widget ∧ n = eventName then some f else t w n

/-- Embeds EventHandlers::call_listener_handler: looks the (widget, event_name) pair
up and, when a function is stored, enqueues it on the microtask queue (modelled as a
list of enqueued functions); otherwise it does nothing. The function is total, so
the lookup-miss path cannot fail. -/
def call_listener_handler (t : EventHandlerTable) (queue : List JsFunction)
    (widget : UiWidgetId) (eventName : UiEventName) : List JsFunction :=
  match t widget eventName with
  | some f => queue ++ [f]
  | none => queue

/-- Embeds op_call_event_listener of react_side.rs: delegates to
EventHandlers::call_listener_handler. -/
def op_call_event_listener (t : EventHandlerTable) (queue : List JsFunction)
    (widget : UiWidget) (event_name : String) : List JsFunction :=
  call_listener_handler t queue widget.widget_id event_name

/-- Runtime class of a v8 value as inspected by op_gtk_set_properties, which tests
is_function, is_string, is_number and is_boolean in that order; the remaining
constructors are value classes for which every one of those tests is false. -/
inductive JsValue where
  | function (f : JsFunction)
  | string (s : String)
  | number (n : F64)
  | boolean (b : Bool)
  | object
  | array
  | nullValue
  | undefined
deriving DecidableEq, Repr

/-- States which v8 value classes the if-chain of op_gtk_set_properties accepts. -/
def isSupportedJsValue : JsValue → Bool
  | .function _ => true
  | .string _ => true
  | .number _ => true
  | .boolean _ => true
  | _ => false

/-- Embeds the body of the property iteration of op_gtk_set_properties after the
children filter: function values are registered in the Event Handler Table and
lowered to the Function marker; strings, numbers and booleans are lowered to their
values; any other value class hits the panic branch, modelled as none (the panic
aborts the op, so no request is produced). -/
def set_properties_go (t : EventHandlerTable) (widget : UiWidgetId) :
    List (String × JsValue) → Option (EventHandlerTable × List (String × UiPropertyValue))
  | [] => some (t, [])
  | (name, v) :: rest =>
    match v with
    | .function f =>
        (set_properties_go (add_listener t widget name f) widget rest).map
          (fun r => (r.1, (name, UiPropertyValue.function) :: r.2))
    | .string s =>
        (set_properties_go t widget rest).map
          (fun r => (r.1, (name, UiPropertyValue.string s) :: r.2))
    | .number n =>
        (set_properties_go t widget rest).map
          (fun r => (r.1, (name, UiPropertyValue.number n) :: r.2))
    | .boolean b =>
        (set_properties_go t widget rest).map
          (fun r => (r.1, (name, UiPropertyValue.bool b) :: r.2))
    | .object => none
    | .array => none
    | .nullValue => none
    | .undefined => none

/-- Embeds the property processing of op_gtk_set_properties of react_side.rs:
props.iter().filter(name != children).map(lowering) together with its event listener
side effects. Returns the updated Event Handler Table and the lowered properties of
the outbound SetProperties request, or none when the op panics on an unsupported
value class. -/
def set_properties_process (t : EventHandlerTable) (widget : UiWidgetId)
    (props : List (String × JsValue)) :
    Option (EventHandlerTable × List (String × UiPropertyValue)) :=
  set_properties_go t widget (props.filter (fun kv => kv.1 != "children"))

/-- Per-value classification performed by the if-chain of op_gtk_set_properties:
functions lower to the Function marker, strings, numbers and booleans to their
values, and every other value class to none (the panic branch). -/
def lowerPropertyValue : JsValue → Option UiPropertyValue
  | .function _ => some .function
  | .string s => some (.string s)
  | .number n => some (.number n)
  | .boolean b => some (.bool b)
  | _ => none

/-- Runs a sequence of set_properties calls (widget, properties) against one Event
Handler Table, threading the table through the calls; none when some call panics. -/
def run_set_properties_calls (t : EventHandlerTable) :
    List (UiWidgetId × List (String × JsValue)) → Option EventHandlerTable
  | [] => some t
  | (w, props) :: rest =>
    match set_properties_process t w props with
    | some (t2, _) => run_set_properties_calls t2 rest
    | none => none

/-- Last callable assigned to the event name within one property list, starting
from the accumulator: a function value for the key wins, any other value for the
key leaves the accumulator unchanged. -/
def lastCallableInProps (eventName : String) :
    List (String × JsValue) → Option JsFunction → Option JsFunction
  | [], acc => acc
  | (name, v) :: rest, acc =>
    lastCallableInProps eventName rest
      (if name = eventName then
        match v with
        | .function f => some f
        | _ => acc
      else acc)

/-- Last callable assigned to (widget, eventName) over a whole sequence of
set_properties calls, starting from the accumulator; calls targeting another
widget are skipped and the children key never assigns. -/
def lastCallableAssigned (widget : UiWidgetId) (eventName : String) :
    List (UiWidgetId × List (String × JsValue)) → Option JsFunction → Option JsFunction
  | [], acc => acc
  | (w, props) :: rest, acc =>
    lastCallableAssigned widget eventName rest
      (if w = widget then
        lastCallableInProps eventName (props.filter (fun kv => kv.1 != "children")) acc
      else acc)

/-- Capability requests a permissions container can be asked about, one per
capability category of the Permissions data model. -/
inductive Capability where
  | environmentVariable (name : String)
  | highResolutionTime
  | network (host : String)
  | ffi (path : String)
  | fsRead (path : String)
  | fsWrite (path : String)
  | runSubprocess (command : String)
  | systemInfo (facet : String)
deriving DecidableEq, Repr

/-- Permissions container handed to the worker: answers, for each capability
request, whether it is allowed. -/
def PermissionsContainer := Capability → Bool

/-- Embeds PermissionsContainer::allow_all of deno_runtime, the container run_react
passes to MainWorker::bootstrap_from_options: every capability is allowed. -/
def PermissionsContainer.allow_all : PermissionsContainer := fun _ => true

/-- Capability set of a plugin, following the Permissions data model: one list of
permitted resources per category, plus the high-resolution-time flag. -/
structure PluginPermissions where
  environment : List String
  high_resolution_time : Bool
  network : List String
  ffi : List String
  fs_read_access : List String
  fs_write_access : List String
  run_subprocess : List String
  system : List String
deriving DecidableEq, Repr

/-- Plugin value consumed by run_react. The struct itself (crate::plugins::Plugin)
is outside src; the id and code fields are visible from their uses in
react_side.rs, and the permissions field is Modelled from the spec: the data model
gives every plugin a capability set. -/
structure Plugin where
  id : String
  code : List (String × String)
  permissions : PluginPermissions
deriving DecidableEq, Repr

/-- Modelled from the spec: which capabilities the capability set of a plugin
grants; capabilities default to empty (deny) and each list names the permitted
resources of its category. No enforcement code exists under src. -/
def PluginPermissions.grants (p : PluginPermissions) : Capability → Bool
  | .environmentVariable name => p.environment.contains name
  | .highResolutionTime => p.high_resolution_time
  | .network host => p.network.contains host
  | .ffi path => p.ffi.contains path
  | .fsRead path => p.fs_read_access.contains path
  | .fsWrite path => p.fs_write_access.contains path
  | .runSubprocess command => p.run_subprocess.contains command
  | .systemInfo facet => p.system.contains facet

/-- Embeds the permissions argument run_react passes to
MainWorker::bootstrap_from_options in react_side.rs: the call site is
PermissionsContainer::allow_all(), independent of the plugin value. -/
def run_react_permissions (_plugin : Plugin) : PermissionsContainer :=
  PermissionsContainer.allow_all

/-- Embeds enum DBusUiPropertyOneValue of react_side.rs: a value-carrying wire
property. -/
inductive DBusUiPropertyOneValue where
  | string (s : String)
  | number (n : F64)
  | bool (b : Bool)
deriving DecidableEq, Repr

/-- Embeds enum DBusUiPropertyZeroValue of react_side.rs: the reference-carrying
Function marker. -/
inductive DBusUiPropertyZeroValue where
  | function
deriving DecidableEq, Repr

/-- Embeds struct DBusUiPropertyContainer of react_side.rs: the two-map split of a
property container, with the HashMaps modelled as association lists. -/
structure DBusUiPropertyContainer where
  zero : List (String × DBusUiPropertyZeroValue)
  one : List (String × DBusUiPropertyOneValue)
deriving DecidableEq, Repr

/-- Association-list form of the filter_map pattern used by the container encoder:
keeps the key and applies a value-level function that decides survival. -/
def keyedFilterMap {α β : Type} (g : α → Option β) (l : List (String × α)) :
    List (String × β) :=
  l.filterMap (fun kv => (g kv.2).map (fun w => (kv.1, w)))

/-- Embeds the properties_one arm of the From conversion from a property map to
DBusUiPropertyContainer: functions are dropped, the other values survive. -/
def dbusOneValueOf : UiPropertyValue → Option DBusUiPropertyOneValue
  | .function => none
  | .string s => some (.string s)
  | .number n => some (.number n)
  | .bool b => some (.bool b)

/-- Embeds the properties_zero arm of the same conversion: functions survive as the
Function marker, the other values are dropped. -/
def dbusZeroValueOf : UiPropertyValue → Option DBusUiPropertyZeroValue
  | .function => some .function
  | .string _ => none
  | .number _ => none
  | .bool _ => none

/-- Embeds impl From of HashMap String UiPropertyValue for DBusUiPropertyContainer
in react_side.rs: the two filter_map passes over the property map. -/
def dbusUiPropertyContainerOfProps (value : List (String × UiPropertyValue)) :
    DBusUiPropertyContainer :=
  { one := keyedFilterMap dbusOneValueOf value
    zero := keyedFilterMap dbusZeroValueOf value }

/-- Embeds the value decoding of the one map in the reverse From conversion. -/
def uiPropertyValueOfOneValue : DBusUiPropertyOneValue → UiPropertyValue
  | .string s => .string s
  | .number n => .number n
  | .bool b => .bool b

/-- Embeds the value decoding of the zero map in the reverse From conversion. -/
def uiPropertyValueOfZeroValue : DBusUiPropertyZeroValue → UiPropertyValue
  | .function => .function

/-- Embeds impl From of DBusUiPropertyContainer for HashMap String UiPropertyValue
in react_side.rs: the decoded zero map is extended with the decoded one map, and
HashMap::extend lets the one map win on key collisions, expressed here by dropping
shadowed zero entries before appending. -/
def propsOfDbusUiPropertyContainer (c : DBusUiPropertyContainer) :
    List (String × UiPropertyValue) :=
  let propertiesOne := c.one.map (fun kv => (kv.1, uiPropertyValueOfOneValue kv.2))
  let propertiesZero := c.zero.map (fun kv => (kv.1, uiPropertyValueOfZeroValue kv.2))
  propertiesZero.filter (fun kv => (propertiesOne.lookup kv.1).isNone) ++ propertiesOne

/-- Embeds struct DbPreferenceEnumValue of data_db_repository.rs. -/
structure DbPreferenceEnumValue where
  label : String
  value : String
deriving DecidableEq, Repr

/-- Embeds enum DbPluginPreference of data_db_repository.rs. -/
inductive DbPluginPreference where
  | number (default : Option F64) (description : String)
  | string (default : Option String) (description : String)
  | enum (default : Option String) (description : String)
      (enum_values : List DbPreferenceEnumValue)
  | bool (default : Option Bool) (description : String)
  | listOfStrings (default : Option (List String)) (description : String)
  | listOfNumbers (default : Option (List F64)) (description : String)
  | listOfEnums (default : Option (List String))
      (enum_values : List DbPreferenceEnumValue) (description : String)
deriving DecidableEq, Repr

/-- Embeds enum DbPluginPreferenceUserData of data_db_repository.rs. -/
inductive DbPluginPreferenceUserData where
  | number (value : Option F64)
  | string (value : Option String)
  | enum (value : Option String)
  | bool (value : Option Bool)
  | listOfStrings (value : Option (List String))
  | listOfNumbers (value : Option (List F64))
  | listOfEnums (value : Option (List String))
deriving DecidableEq, Repr

/-- Embeds struct DbPluginPermissions of data_db_repository.rs; PathBuf fields are
carried as strings. -/
structure DbPluginPermissions where
  environment : List String
  high_resolution_time : Bool
  network : List String
  ffi : List String
  fs_read_access : List String
  fs_write_access : List String
  run_subprocess : List String
  system : List String
deriving DecidableEq, Repr

/-- Embeds struct DbCode of data_db_repository.rs: the entrypoint-to-source map. -/
structure DbCode where
  js : List (String × String)
deriving DecidableEq, Repr

/-- Embeds struct DbWritePluginEntrypoint of data_db_repository.rs. -/
structure DbWritePluginEntrypoint where
  id : String
  name : String
  description : String
  entrypoint_type : String
  preferences : List (String × DbPluginPreference)
  preferences_user_data : List (String × DbPluginPreferenceUserData)
deriving DecidableEq, Repr

/-- Embeds struct DbWritePlugin of data_db_repository.rs. -/
structure DbWritePlugin where
  id : String
  name : String
  description : String
  enabled : Bool
  code : DbCode
  entrypoints : List DbWritePluginEntrypoint
  permissions : DbPluginPermissions
  from_config : Bool
  preferences : List (String × DbPluginPreference)
  preferences_user_data : List (String × DbPluginPreferenceUserData)
deriving DecidableEq, Repr

/-- Row of the plugin table, with the columns the INSERT of save_plugin binds; the
JSON-serialized columns are carried structurally. -/
structure DbPluginRow where
  id : String
  name : String
  enabled : Bool
  code : DbCode
  permissions : DbPluginPermissions
  from_config : Bool
  preferences : List (String × DbPluginPreference)
  preferences_user_data : List (String × DbPluginPreferenceUserData)
  description : String
deriving DecidableEq, Repr

/-- Row of the plugin_entrypoint table, with the columns the INSERT of save_plugin
binds. -/
structure DbPluginEntrypointRow where
  id : String
  plugin_id : String
  name : String
  enabled : Bool
  entrypoint_type : String
  preferences : List (String × DbPluginPreference)
  preferences_user_data : List (String × DbPluginPreferenceUserData)
  description : String
deriving DecidableEq, Repr

/-- State of the SQLite database consumed by DataDbRepository: the plugin and
plugin_entrypoint tables. -/
structure DbState where
  plugin : List DbPluginRow
  plugin_entrypoint : List DbPluginEntrypointRow
deriving DecidableEq, Repr

/-- Modelled from the spec: the SQL schema lives in db_migrations, which is not
under src; per the data model, plugin ids are globally unique, so the INSERT INTO
plugin fails on a duplicate id and otherwise appends the row. -/
def insertPluginRow (s : DbState) (row : DbPluginRow) : Except String DbState :=
  if s.plugin.any (fun r => r.id == row.id) then
    .error "UNIQUE constraint failed: plugin.id"
  else
    .ok { s with plugin := s.plugin ++ [row] }

/-- Modelled from the spec: entrypoint ids are unique within a plugin, so the
INSERT INTO plugin_entrypoint fails when the (id, plugin_id) pair already exists
and otherwise appends the row. -/
def insertEntrypointRow (s : DbState) (row : DbPluginEntrypointRow) : Except String DbState :=
  if s.plugin_entrypoint.any (fun r => r.id == row.id && r.plugin_id == row.plugin_id) then
    .error "UNIQUE constraint failed: plugin_entrypoint.id"
  else
    .ok { s with plugin_entrypoint := s.plugin_entrypoint ++ [row] }

/-- Builds the plugin row that the first INSERT of save_plugin binds: the
from_config column is bound to false. -/
def pluginRowOfWrite (p : DbWritePlugin) : DbPluginRow :=
  { id := p.id
    name := p.name
    enabled := p.enabled
    code := p.code
    permissions := p.permissions
    from_config := false
    preferences := p.preferences
    preferences_user_data := p.preferences_user_data
    description := p.description }

/-- Builds the entrypoint row that the per-entrypoint INSERT of save_plugin binds:
the plugin_id column is bound to the id of the plugin being saved and the enabled
column is bound to true. -/
def entrypointRowOfWrite (pluginId : String) (e : DbWritePluginEntrypoint) :
    DbPluginEntrypointRow :=
  { id := e.id
    plugin_id := pluginId
    name := e.name
    enabled := true
    entrypoint_type := e.entrypoint_type
    preferences := e.preferences
    preferences_user_data := e.preferences_user_data
    description := e.description }

/-- Embeds the entrypoint loop of save_plugin: one INSERT per entrypoint, run in
order inside the open transaction; the first failure aborts the loop. -/
def insertEntrypoints (pluginId : String) :
    List DbWritePluginEntrypoint → DbState → Except String DbState
  | [], s => .ok s
  | e :: rest, s =>
    match insertEntrypointRow s (entrypointRowOfWrite pluginId e) with
    | .ok s2 => insertEntrypoints pluginId rest s2
    | .error err => .error err

/-- Embeds the insert sequence of DataDbRepository::save_plugin as run inside the
open transaction: the plugin row first, then every entrypoint row; the
question-mark operator propagates the first failure. -/
def save_plugin_inserts (s : DbState) (p : DbWritePlugin) : Except String DbState :=
  match insertPluginRow s (pluginRowOfWrite p) with
  | .ok s2 => insertEntrypoints p.id p.entrypoints s2
  | .error err => .error err

/-- Embeds DataDbRepository::save_plugin: the inserts run inside one transaction;
on a failure the transaction value is dropped without commit and SQLite rolls the
database back to the original state, while on success the transaction commits.
The Bool records whether the call returned Ok. -/
def save_plugin (s : DbState) (p : DbWritePlugin) : DbState × Bool :=
  match save_plugin_inserts s p with
  | .ok s2 => (s2, true)
  | .error _ => (s, false)

/-- Concrete plugin record used to exercise the persistence model. -/
def demoWritePlugin : DbWritePlugin :=
  { id := "com.example.demo"
    name := "Demo"
    description := "demo plugin"
    enabled := true
    code := { js := [("main", "export default 1")] }
    entrypoints :=
      [{ id := "main"
         name := "Main"
         description := "main entrypoint"
         entrypoint_type := "command"
         preferences := []
         preferences_user_data := [] }]
    permissions :=
      { environment := []
        high_resolution_time := false
        network := []
        ffi := []
        fs_read_access := []
        fs_write_access := []
        run_subprocess := []
        system := [] }
    from_config := false
    preferences := []
    preferences_user_data := [] }

/-- Embeds DataDbRepository::list_plugins: SELECT * FROM plugin. -/
def list_plugins (s : DbState) : List DbPluginRow :=
  s.plugin

/-- Embeds DataDbRepository::get_entrypoints_by_plugin_id: SELECT * FROM
plugin_entrypoint WHERE plugin_id = ?1. -/
def get_entrypoints_by_plugin_id (s : DbState) (pluginId : String) :
    List DbPluginEntrypointRow :=
  s.plugin_entrypoint.filter (fun r => r.plugin_id == pluginId)

/-- Embeds DataDbRepository::list_plugins_and_entrypoints: every plugin row paired
with its entrypoint rows. -/
def list_plugins_and_entrypoints (s : DbState) :
    List (DbPluginRow × List DbPluginEntrypointRow) :=
  (list_plugins s).map (fun p => (p, get_entrypoints_by_plugin_id s p.id))

/-- C1: set_plugin_state follows the 3-state table: (running=false, enabled=false,
requested=true) persists enabled=true and starts the runtime; (false, true, true)
only starts the runtime; (true, true, false) persists enabled=false, stops the
runtime and removes the plugin from the search index; (true, false, anything) only
logs an invariant violation; every other combination is a no-op. -/
theorem set_plugin_state_matches_table (pluginId : String) :
    set_plugin_state pluginId false false true
        = [.setPluginEnabled pluginId true, .startPlugin pluginId]
    ∧ set_plugin_state pluginId false true true = [.startPlugin pluginId]
    ∧ set_plugin_state pluginId true true false
        = [.setPluginEnabled pluginId false, .stopPlugin pluginId,
           .removeForPlugin pluginId]
    ∧ (∀ setEnabled : Bool,
        set_plugin_state pluginId true false setEnabled
          = [.logInvariantViolation pluginId])
    ∧ set_plugin_state pluginId false false false = []
    ∧ set_plugin_state pluginId false true false = []
    ∧ set_plugin_state pluginId true true true = [] := by
  refine ⟨rfl, rfl, rfl, ?_, rfl, rfl, rfl⟩
  intro setEnabled
  cases setEnabled <;> rfl

/-- C2 counterexample: a plugin whose capability set grants nothing is still
started with a container that allows a network capability, so the container the
worker receives does not deny every capability the capability set withholds. -/
theorem run_react_ignores_capability_set :
    PluginPermissions.grants
        { environment := [], high_resolution_time := false, network := [], ffi := [],
          fs_read_access := [], fs_write_access := [], run_subprocess := [],
          system := [] }
        (Capability.network "example.com") = false
    ∧ run_react_permissions
        { id := "demo-plugin"
          code := []
          permissions :=
            { environment := [], high_resolution_time := false, network := [],
              ffi := [], fs_read_access := [], fs_write_access := [],
              run_subprocess := [], system := [] } }
        (Capability.network "example.com") = true :=
  ⟨rfl, rfl⟩

/-- C2 (amended): run_react starts the worker with PermissionsContainer::allow_all,
so every capability is allowed for every plugin, whatever its capability set. -/
theorem run_react_permissions_allow_all_caps (plugin : Plugin) (c : Capability) :
    run_react_permissions plugin c = true :=
  rfl

/-- C4: at the failing input, op_gtk_insert_before places no request on the channel
because its make_request future is dropped without being awaited, while
op_gtk_append_child and op_gtk_remove_child do place their requests. -/
theorem op_gtk_insert_before_sends_no_request :
    op_gtk_insert_before [] ⟨1⟩ ⟨2⟩ ⟨3⟩ = []
    ∧ op_gtk_append_child [] ⟨1⟩ ⟨2⟩ = [UiRequestData.appendChild ⟨1⟩ ⟨2⟩]
    ∧ op_gtk_remove_child [] ⟨1⟩ ⟨2⟩ = [UiRequestData.removeChild ⟨1⟩ ⟨2⟩] :=
  ⟨rfl, rfl, rfl⟩

/-- C8: when the frecency database update fails, mark_entrypoint_frecency only
records the warn log, the three command handlers still complete with their normal
command traces, and the ReloadSearchIndex command is issued after the addressed
command in every case. -/
theorem frecency_failure_not_propagated (pluginId entrypointId err : String) :
    (mark_entrypoint_frecency pluginId entrypointId (Except.error err)).warned = true
    ∧ handle_run_command pluginId entrypointId (Except.error err)
        = [.one pluginId (.runCommand entrypointId), .one pluginId .reloadSearchIndex]
    ∧ handle_run_generated_command pluginId entrypointId (Except.error err)
        = [.one pluginId (.runGeneratedCommand entrypointId),
           .one pluginId .reloadSearchIndex]
    ∧ handle_render_view pluginId entrypointId (Except.error err)
        = [.one pluginId (.renderView entrypointId),
           .one pluginId .reloadSearchIndex] :=
  ⟨rfl, rfl, rfl, rfl⟩

/-- C10: when the Event Handler Table holds no handler for the widget and event
name, op_call_event_listener returns the microtask queue unchanged and cannot
fail (it is total). -/
theorem op_call_event_listener_no_handler_noop (t : EventHandlerTable)
    (queue : List JsFunction) (widget : UiWidget) (event_name : String)
    (h : t widget.widget_id event_name = none) :
    op_call_event_listener t queue widget event_name = queue := by
  unfold op_call_event_listener call_listener_handler
  rw [h]

/-- C10 witness: the empty table at widget 1 and event onClick. -/
theorem op_call_event_listener_no_handler_noop_witness :
    op_call_event_listener EventHandlerTable.empty [] ⟨1⟩ "onClick" = [] :=
  op_call_event_listener_no_handler_noop EventHandlerTable.empty [] ⟨1⟩ "onClick" rfl

/-- Processing succeeds on every property list whose values all pass the if-chain
of op_gtk_set_properties. -/
theorem set_properties_go_isSome (w : UiWidgetId) :
    ∀ (props : List (String × JsValue)) (t : EventHandlerTable),
      (∀ kv ∈ props, isSupportedJsValue kv.2 = true) →
      (set_properties_go t w props).isSome = true := by
  intro props
  induction props with
  | nil => exact fun t _ => rfl
  | cons kv rest ih =>
    intro t hall
    obtain ⟨name, v⟩ := kv
    have hrest : ∀ kv ∈ rest, isSupportedJsValue kv.2 = true :=
      fun kv hkv => hall kv (List.mem_cons_of_mem _ hkv)
    have hv : isSupportedJsValue v = true := hall (name, v) (List.mem_cons_self _ _)
    cases v with
    | function f =>
      obtain ⟨r, hr⟩ := Option.isSome_iff_exists.mp (ih (add_listener t w name f) hrest)
      simp [set_properties_go, hr]
    | string s =>
      obtain ⟨r, hr⟩ := Option.isSome_iff_exists.mp (ih t hrest)
      simp [set_properties_go, hr]
    | number n =>
      obtain ⟨r, hr⟩ := Option.isSome_iff_exists.mp (ih t hrest)
      simp [set_properties_go, hr]
    | boolean b =>
      obtain ⟨r, hr⟩ := Option.isSome_iff_exists.mp (ih t hrest)
      simp [set_properties_go, hr]
    | object => simp [isSupportedJsValue] at hv
    | array => simp [isSupportedJsValue] at hv
    | nullValue => simp [isSupportedJsValue] at hv
    | undefined => simp [isSupportedJsValue] at hv

/-- C9: the property processing of op_gtk_set_properties completes for every
property list whose values are functions, strings, numbers or booleans, and it
panics (returns no request at all, rather than an error) as soon as a property
under a key other than children carries any other value class, here an object;
the same object under the children key is filtered out before the if-chain and
does not panic. -/
theorem set_properties_totality_boundary (t : EventHandlerTable) (w : UiWidgetId)
    (props : List (String × JsValue))
    (hsupported : ∀ kv ∈ props, kv.1 ≠ "children" → isSupportedJsValue kv.2 = true) :
    (set_properties_process t w props).isSome = true
    ∧ set_properties_process t w [("style", JsValue.object)] = none
    ∧ (set_properties_process t w [("children", JsValue.object)]).isSome = true := by
  refine ⟨?_, rfl, rfl⟩
  apply set_properties_go_isSome
  intro kv hkv
  have hm := List.mem_filter.mp hkv
  exact hsupported kv hm.1 (by simpa using hm.2)

/-- C9 witness: a supported property list is processed, an object-valued property
panics. -/
theorem set_properties_totality_boundary_witness :
    (set_properties_process EventHandlerTable.empty 1
        [("onClick", JsValue.function 5), ("title", JsValue.string "x")]).isSome = true
    ∧ set_properties_process EventHandlerTable.empty 1
        [("style", JsValue.object)] = none :=
  ⟨(set_properties_totality_boundary EventHandlerTable.empty 1
      [("onClick", JsValue.function 5), ("title", JsValue.string "x")]
      (by decide)).1,
   (set_properties_totality_boundary EventHandlerTable.empty 1 [] (by decide)).2.1⟩

/-- C3 counterexample: after set_properties(1, onClick = function 7) followed by
set_properties(1, onClick = string x), the table still holds function 7 for
(1, onClick); overwriting the key with a non-callable did not remove the previous
binding, which the claim says it does. -/
theorem set_properties_overwrite_keeps_stale_listener :
    (run_set_properties_calls EventHandlerTable.empty
        [(1, [("onClick", JsValue.function 7)]),
         (1, [("onClick", JsValue.string "x")])]).map
      (fun t => t 1 "onClick") = some (some 7)
    ∧ (run_set_properties_calls EventHandlerTable.empty
        [(1, [("onClick", JsValue.function 7)]),
         (1, [("onClick", JsValue.string "x")])]).map
      (fun t => t 1 "onClick") ≠ some none := by
  exact ⟨rfl, by decide⟩

/-- Table effect of one property list processed by op_gtk_set_properties: at every
(widget, event name) slot, the new table holds the last callable the list assigns,
falling back to the previous content; slots of other widgets are untouched. -/
theorem set_properties_go_table (w : UiWidgetId) :
    ∀ (props : List (String × JsValue)) (t t2 : EventHandlerTable)
      (lowered : List (String × UiPropertyValue)),
      set_properties_go t w props = some (t2, lowered) →
      ∀ (wx : UiWidgetId) (ex : UiEventName),
        t2 wx ex = if w = wx then lastCallableInProps ex props (t wx ex) else t wx ex := by
  intro props
  induction props with
  | nil =>
    intro t t2 lowered h wx ex
    simp only [set_properties_go, Option.some.injEq, Prod.mk.injEq] at h
    rw [← h.1]
    by_cases hw : w = wx <;> simp [hw, lastCallableInProps]
  | cons kv rest ih =>
    intro t t2 lowered h wx ex
    obtain ⟨name, v⟩ := kv
    cases v with
    | function f =>
      cases hgo : set_properties_go (add_listener t w name f) w rest with
      | none => rw [set_properties_go, hgo] at h; cases h
      | some r =>
        obtain ⟨t3, l3⟩ := r
        rw [set_properties_go, hgo] at h
        simp only [Option.map_some', Option.some.injEq, Prod.mk.injEq] at h
        obtain ⟨ht2, -⟩ := h
        subst ht2
        have ihres := ih (add_listener t w name f) t3 l3 hgo wx ex
        rw [ihres]
        have harg : ∀ acc : Option JsFunction,
            lastCallableInProps ex ((name, JsValue.function f) :: rest) acc
              = lastCallableInProps ex rest (if name = ex then some f else acc) :=
          fun acc => rfl
        by_cases hw : w = wx
        · subst hw
          have hstep : (add_listener t w name f) w ex
              = if name = ex then some f else t w ex := by
            by_cases hne : name = ex
            · subst hne; simp [add_listener]
            · simp [add_listener, hne, Ne.symm hne]
          simp only [if_pos rfl, harg, hstep]
          simp
        · have hwx : wx ≠ w := fun hh => hw hh.symm
          simp only [if_neg hw]
          simp [add_listener, hwx]
    | string s =>
      cases hgo : set_properties_go t w rest with
      | none => rw [set_properties_go, hgo] at h; cases h
      | some r =>
        obtain ⟨t3, l3⟩ := r
        rw [set_properties_go, hgo] at h
        simp only [Option.map_some', Option.some.injEq, Prod.mk.injEq] at h
        obtain ⟨ht2, -⟩ := h
        subst ht2
        rw [ih t t3 l3 hgo wx ex]
        simp [lastCallableInProps]
    | number n =>
      cases hgo : set_properties_go t w rest with
      | none => rw [set_properties_go, hgo] at h; cases h
      | some r =>
        obtain ⟨t3, l3⟩ := r
        rw [set_properties_go, hgo] at h
        simp only [Option.map_some', Option.some.injEq, Prod.mk.injEq] at h
        obtain ⟨ht2, -⟩ := h
        subst ht2
        rw [ih t t3 l3 hgo wx ex]
        simp [lastCallableInProps]
    | boolean b =>
      cases hgo : set_properties_go t w rest with
      | none => rw [set_properties_go, hgo] at h; cases h
      | some r =>
        obtain ⟨t3, l3⟩ := r
        rw [set_properties_go, hgo] at h
        simp only [Option.map_some', Option.some.injEq, Prod.mk.injEq] at h
        obtain ⟨ht2, -⟩ := h
        subst ht2
        rw [ih t t3 l3 hgo wx ex]
        simp [lastCallableInProps]
    | object => rw [set_properties_go] at h; cases h
    | array => rw [set_properties_go] at h; cases h
    | nullValue => rw [set_properties_go] at h; cases h
    | undefined => rw [set_properties_go] at h; cases h

/-- Table effect of one full set_properties call: as set_properties_go_table, after
the children filter. -/
theorem set_properties_process_table (t t2 : EventHandlerTable) (w : UiWidgetId)
    (props : List (String × JsValue)) (lowered : List (String × UiPropertyValue))
    (h : set_properties_process t w props = some (t2, lowered))
    (wx : UiWidgetId) (ex : UiEventName) :
    t2 wx ex =
      if w = wx then
        lastCallableInProps ex (props.filter (fun kv => kv.1 != "children")) (t wx ex)
      else t wx ex :=
  set_properties_go_table w _ t t2 lowered h wx ex

/-- Table content after a whole sequence of set_properties calls: every slot holds
the last callable assigned to it, starting from the initial content. -/
theorem run_set_properties_calls_table :
    ∀ (calls : List (UiWidgetId × List (String × JsValue))) (t tf : EventHandlerTable),
      run_set_properties_calls t calls = some tf →
      ∀ (wx : UiWidgetId) (ex : UiEventName),
        tf wx ex = lastCallableAssigned wx ex calls (t wx ex) := by
  intro calls
  induction calls with
  | nil =>
    intro t tf h wx ex
    simp only [run_set_properties_calls, Option.some.injEq] at h
    rw [← h]
    rfl
  | cons c rest ih =>
    intro t tf h wx ex
    obtain ⟨w, props⟩ := c
    rw [run_set_properties_calls] at h
    cases hp : set_properties_process t w props with
    | none => rw [hp] at h; cases h
    | some r =>
      rw [hp] at h
      obtain ⟨t2, lowered⟩ := r
      have step := set_properties_process_table t t2 w props lowered hp wx ex
      rw [ih t2 tf h wx ex, step]
      simp [lastCallableAssigned]

/-- C3 (amended): after any sequence of completed set_properties calls the Event
Handler Table holds at most one callable per (widget, event name) slot, namely the
last callable assigned to that slot; overwriting a key with a callable replaces
the binding, while overwriting it with a non-callable value leaves the previous
binding in place. -/
theorem event_handler_table_last_callable
    (calls : List (UiWidgetId × List (String × JsValue))) (tf : EventHandlerTable)
    (h : run_set_properties_calls EventHandlerTable.empty calls = some tf)
    (w : UiWidgetId) (e : UiEventName) :
    tf w e = lastCallableAssigned w e calls none :=
  run_set_properties_calls_table calls EventHandlerTable.empty tf h w e

/-- C3 witness: two calls on different widgets, checked at (1, onClick). -/
theorem event_handler_table_last_callable_witness :
    (add_listener (add_listener EventHandlerTable.empty 1 "onClick" 4)
        2 "onSelect" 6) 1 "onClick"
      = lastCallableAssigned 1 "onClick"
          [(1, [("onClick", JsValue.function 4)]),
           (2, [("onSelect", JsValue.function 6)])] none :=
  event_handler_table_last_callable
    [(1, [("onClick", JsValue.function 4)]), (2, [("onSelect", JsValue.function 6)])]
    (add_listener (add_listener EventHandlerTable.empty 1 "onClick" 4) 2 "onSelect" 6)
    rfl 1 "onClick"

/-- Lookup distributes over list append, first list first. -/
theorem lookup_append {β : Type} (l1 l2 : List (String × β)) (k : String) :
    (l1 ++ l2).lookup k =
      match l1.lookup k with
      | some v => some v
      | none => l2.lookup k := by
  induction l1 with
  | nil => simp [List.lookup]
  | cons kv t ih =>
    obtain ⟨a, b⟩ := kv
    cases hka : k == a with
    | true => simp [List.lookup, hka]
    | false => simp [List.lookup, hka, ih]

/-- Lookup through a filter whose predicate only inspects the key. -/
theorem lookup_filter_key {β : Type} (p : String → Bool) (l : List (String × β))
    (k : String) :
    (l.filter (fun kv => p kv.1)).lookup k = if p k then l.lookup k else none := by
  induction l with
  | nil => simp [List.lookup]
  | cons kv t ih =>
    obtain ⟨a, b⟩ := kv
    cases hka : k == a with
    | true =>
      have hk : k = a := by simpa using hka
      subst hk
      cases hp : p k with
      | true => simp [List.filter_cons, hp, List.lookup, ih]
      | false => simp [List.filter_cons, hp, List.lookup, ih]
    | false =>
      cases hp : p a with
      | true => simp [List.filter_cons, hp, List.lookup, hka, ih]
      | false => simp [List.filter_cons, hp, List.lookup, hka, ih]

/-- Lookup through a key-preserving map over the values. -/
theorem lookup_map_value {α β : Type} (h : α → β) (l : List (String × α)) (k : String) :
    (l.map (fun kv => (kv.1, h kv.2))).lookup k = (l.lookup k).map h := by
  induction l with
  | nil => simp [List.lookup]
  | cons kv t ih =>
    obtain ⟨a, b⟩ := kv
    cases hka : k == a with
    | true => simp [List.lookup, hka]
    | false => simp [List.lookup, hka, ih]

/-- Lookup misses a keyedFilterMap whose source never carries the key. -/
theorem lookup_keyedFilterMap_of_not_mem {α β : Type} (g : α → Option β)
    (l : List (String × α)) (k : String) (hk : ∀ kv ∈ l, kv.1 ≠ k) :
    (keyedFilterMap g l).lookup k = none := by
  induction l with
  | nil => simp [keyedFilterMap, List.lookup]
  | cons kv t ih =>
    obtain ⟨a, b⟩ := kv
    have ha : a ≠ k := hk (a, b) (List.mem_cons_self _ _)
    have ht : ∀ kv ∈ t, kv.1 ≠ k := fun kv hkv => hk kv (List.mem_cons_of_mem _ hkv)
    have hka : (k == a) = false := by simp [Ne.symm ha]
    cases hgb : g b with
    | none => simpa [keyedFilterMap, List.filterMap_cons, hgb] using ih ht
    | some v =>
      have := ih ht
      simpa [keyedFilterMap, List.filterMap_cons, hgb, List.lookup, hka] using this

/-- Lookup through a keyedFilterMap over a map with distinct keys. -/
theorem lookup_keyedFilterMap {α β : Type} (g : α → Option β)
    (l : List (String × α)) (k : String) (hnd : (l.map Prod.fst).Nodup) :
    (keyedFilterMap g l).lookup k = (l.lookup k).bind g := by
  induction l with
  | nil => simp [keyedFilterMap, List.lookup]
  | cons kv t ih =>
    obtain ⟨a, b⟩ := kv
    have hpair : (∀ x : α, (a, x) ∉ t) ∧ (t.map Prod.fst).Nodup := by simpa using hnd
    have hnd' : (t.map Prod.fst).Nodup := hpair.2
    cases hka : k == a with
    | true =>
      have hkeq : k = a := by simpa using hka
      subst hkeq
      cases hgb : g b with
      | some v => simp [keyedFilterMap, List.filterMap_cons, hgb, List.lookup]
      | none =>
        have hmiss : (keyedFilterMap g t).lookup k = none := by
          apply lookup_keyedFilterMap_of_not_mem
          intro kv hkv hkk
          exact hpair.1 kv.2 (by rw [← hkk, Prod.mk.eta]; exact hkv)
        have hhead : keyedFilterMap g ((k, b) :: t) = keyedFilterMap g t := by
          simp [keyedFilterMap, List.filterMap_cons, hgb]
        rw [hhead, hmiss]
        simp [List.lookup, hgb]
    | false =>
      cases hgb : g b with
      | some v =>
        have := ih hnd'
        simpa [keyedFilterMap, List.filterMap_cons, hgb, List.lookup, hka] using this
      | none =>
        have := ih hnd'
        simpa [keyedFilterMap, List.filterMap_cons, hgb, List.lookup, hka] using this

/-- C6: encoding a property map into the two-map wire container and decoding it
back preserves the whole mapping: every string, number and bool entry comes back
verbatim and exactly the function-marker keys come back as Function. -/
theorem property_container_roundtrip (m : List (String × UiPropertyValue))
    (hnd : (m.map Prod.fst).Nodup) (k : String) :
    (propsOfDbusUiPropertyContainer (dbusUiPropertyContainerOfProps m)).lookup k
      = m.lookup k := by
  simp only [propsOfDbusUiPropertyContainer, dbusUiPropertyContainerOfProps]
  rw [lookup_append, lookup_filter_key
    (fun key => (((keyedFilterMap dbusOneValueOf m).map
      (fun kv => (kv.1, uiPropertyValueOfOneValue kv.2))).lookup key).isNone)]
  rw [lookup_map_value, lookup_map_value, lookup_keyedFilterMap dbusOneValueOf m k hnd,
    lookup_keyedFilterMap dbusZeroValueOf m k hnd]
  cases hm : m.lookup k with
  | none => simp
  | some v => cases v <;> simp [dbusOneValueOf, dbusZeroValueOf,
      uiPropertyValueOfOneValue, uiPropertyValueOfZeroValue]

/-- C6 witness: a four-entry property map, checked at each of its keys. -/
theorem property_container_roundtrip_witness :
    (propsOfDbusUiPropertyContainer (dbusUiPropertyContainerOfProps
        [("onClick", UiPropertyValue.function), ("title", UiPropertyValue.string "x"),
         ("size", UiPropertyValue.number 3),
         ("enabled", UiPropertyValue.bool true)])).lookup "onClick"
      = List.lookup "onClick"
          [("onClick", UiPropertyValue.function), ("title", UiPropertyValue.string "x"),
           ("size", UiPropertyValue.number 3), ("enabled", UiPropertyValue.bool true)] :=
  property_container_roundtrip
    [("onClick", UiPropertyValue.function), ("title", UiPropertyValue.string "x"),
     ("size", UiPropertyValue.number 3), ("enabled", UiPropertyValue.bool true)]
    (by decide) "onClick"

/-- The lowered list produced by set_properties_go keeps the keys in order. -/
theorem set_properties_go_keys (w : UiWidgetId) :
    ∀ (props : List (String × JsValue)) (t t2 : EventHandlerTable)
      (lowered : List (String × UiPropertyValue)),
      set_properties_go t w props = some (t2, lowered) →
      lowered.map Prod.fst = props.map Prod.fst := by
  intro props
  induction props with
  | nil =>
    intro t t2 lowered h
    simp only [set_properties_go, Option.some.injEq, Prod.mk.injEq] at h
    rw [← h.2]
    rfl
  | cons kv rest ih =>
    intro t t2 lowered h
    obtain ⟨name, v⟩ := kv
    cases v with
    | function f =>
      cases hgo : set_properties_go (add_listener t w name f) w rest with
      | none => rw [set_properties_go, hgo] at h; cases h
      | some r =>
        obtain ⟨t3, l3⟩ := r
        rw [set_properties_go, hgo] at h
        simp only [Option.map_some', Option.some.injEq, Prod.mk.injEq] at h
        rw [← h.2]
        simpa using ih (add_listener t w name f) t3 l3 hgo
    | string s =>
      cases hgo : set_properties_go t w rest with
      | none => rw [set_properties_go, hgo] at h; cases h
      | some r =>
        obtain ⟨t3, l3⟩ := r
        rw [set_properties_go, hgo] at h
        simp only [Option.map_some', Option.some.injEq, Prod.mk.injEq] at h
        rw [← h.2]
        simpa using ih t t3 l3 hgo
    | number n =>
      cases hgo : set_properties_go t w rest with
      | none => rw [set_properties_go, hgo] at h; cases h
      | some r =>
        obtain ⟨t3, l3⟩ := r
        rw [set_properties_go, hgo] at h
        simp only [Option.map_some', Option.some.injEq, Prod.mk.injEq] at h
        rw [← h.2]
        simpa using ih t t3 l3 hgo
    | boolean b =>
      cases hgo : set_properties_go t w rest with
      | none => rw [set_properties_go, hgo] at h; cases h
      | some r =>
        obtain ⟨t3, l3⟩ := r
        rw [set_properties_go, hgo] at h
        simp only [Option.map_some', Option.some.injEq, Prod.mk.injEq] at h
        rw [← h.2]
        simpa using ih t t3 l3 hgo
    | object => rw [set_properties_go] at h; cases h
    | array => rw [set_properties_go] at h; cases h
    | nullValue => rw [set_properties_go] at h; cases h
    | undefined => rw [set_properties_go] at h; cases h

/-- The lowered list produced by set_properties_go holds, for each key, the
lowering of the value the input holds for that key. -/
theorem set_properties_go_lookup (w : UiWidgetId) :
    ∀ (props : List (String × JsValue)) (t t2 : EventHandlerTable)
      (lowered : List (String × UiPropertyValue)),
      set_properties_go t w props = some (t2, lowered) →
      ∀ k, lowered.lookup k = (props.lookup k).bind lowerPropertyValue := by
  intro props
  induction props with
  | nil =>
    intro t t2 lowered h k
    simp only [set_properties_go, Option.some.injEq, Prod.mk.injEq] at h
    rw [← h.2]
    simp [List.lookup]
  | cons kv rest ih =>
    intro t t2 lowered h k
    obtain ⟨name, v⟩ := kv
    cases v with
    | function f =>
      cases hgo : set_properties_go (add_listener t w name f) w rest with
      | none => rw [set_properties_go, hgo] at h; cases h
      | some r =>
        obtain ⟨t3, l3⟩ := r
        rw [set_properties_go, hgo] at h
        simp only [Option.map_some', Option.some.injEq, Prod.mk.injEq] at h
        rw [← h.2]
        cases hka : k == name with
        | true => simp [List.lookup, hka, lowerPropertyValue]
        | false =>
          simpa [List.lookup, hka] using
            ih (add_listener t w name f) t3 l3 hgo k
    | string s =>
      cases hgo : set_properties_go t w rest with
      | none => rw [set_properties_go, hgo] at h; cases h
      | some r =>
        obtain ⟨t3, l3⟩ := r
        rw [set_properties_go, hgo] at h
        simp only [Option.map_some', Option.some.injEq, Prod.mk.injEq] at h
        rw [← h.2]
        cases hka : k == name with
        | true => simp [List.lookup, hka, lowerPropertyValue]
        | false => simpa [List.lookup, hka] using ih t t3 l3 hgo k
    | number n =>
      cases hgo : set_properties_go t w rest with
      | none => rw [set_properties_go, hgo] at h; cases h
      | some r =>
        obtain ⟨t3, l3⟩ := r
        rw [set_properties_go, hgo] at h
        simp only [Option.map_some', Option.some.injEq, Prod.mk.injEq] at h
        rw [← h.2]
        cases hka : k == name with
        | true => simp [List.lookup, hka, lowerPropertyValue]
        | false => simpa [List.lookup, hka] using ih t t3 l3 hgo k
    | boolean b =>
      cases hgo : set_properties_go t w rest with
      | none => rw [set_properties_go, hgo] at h; cases h
      | some r =>
        obtain ⟨t3, l3⟩ := r
        rw [set_properties_go, hgo] at h
        simp only [Option.map_some', Option.some.injEq, Prod.mk.injEq] at h
        rw [← h.2]
        cases hka : k == name with
        | true => simp [List.lookup, hka, lowerPropertyValue]
        | false => simpa [List.lookup, hka] using ih t t3 l3 hgo k
    | object => rw [set_properties_go] at h; cases h
    | array => rw [set_properties_go] at h; cases h
    | nullValue => rw [set_properties_go] at h; cases h
    | undefined => rw [set_properties_go] at h; cases h

/-- C5: for every property map processed by op_gtk_set_properties, the serialized
container of the outbound request puts the children key in neither map, each
function property only as a marker in the reference-carrying zero map, and each
string, number and bool property with its value only in the value-carrying one
map. -/
theorem set_properties_container_split (t t2 : EventHandlerTable) (w : UiWidgetId)
    (props : List (String × JsValue)) (lowered : List (String × UiPropertyValue))
    (hnd : (props.map Prod.fst).Nodup)
    (h : set_properties_process t w props = some (t2, lowered)) :
    ((dbusUiPropertyContainerOfProps lowered).zero.lookup "children" = none
      ∧ (dbusUiPropertyContainerOfProps lowered).one.lookup "children" = none)
    ∧ (∀ k f, props.lookup k = some (JsValue.function f) → k ≠ "children" →
        (dbusUiPropertyContainerOfProps lowered).zero.lookup k
            = some DBusUiPropertyZeroValue.function
          ∧ (dbusUiPropertyContainerOfProps lowered).one.lookup k = none)
    ∧ (∀ k s, props.lookup k = some (JsValue.string s) → k ≠ "children" →
        (dbusUiPropertyContainerOfProps lowered).one.lookup k
            = some (DBusUiPropertyOneValue.string s)
          ∧ (dbusUiPropertyContainerOfProps lowered).zero.lookup k = none)
    ∧ (∀ k n, props.lookup k = some (JsValue.number n) → k ≠ "children" →
        (dbusUiPropertyContainerOfProps lowered).one.lookup k
            = some (DBusUiPropertyOneValue.number n)
          ∧ (dbusUiPropertyContainerOfProps lowered).zero.lookup k = none)
    ∧ (∀ k b, props.lookup k = some (JsValue.boolean b) → k ≠ "children" →
        (dbusUiPropertyContainerOfProps lowered).one.lookup k
            = some (DBusUiPropertyOneValue.bool b)
          ∧ (dbusUiPropertyContainerOfProps lowered).zero.lookup k = none) := by
  have hkeys : lowered.map Prod.fst
      = (props.filter (fun kv => kv.1 != "children")).map Prod.fst :=
    set_properties_go_keys w _ t t2 lowered h
  have hndlow : (lowered.map Prod.fst).Nodup := by
    rw [hkeys]
    exact ((List.filter_sublist props).map Prod.fst).nodup hnd
  have hnochild : ∀ kv ∈ lowered, kv.1 ≠ "children" := by
    intro kv hkv hkk
    have hmem : kv.1 ∈ (props.filter (fun kv => kv.1 != "children")).map Prod.fst := by
      rw [← hkeys]; exact List.mem_map_of_mem Prod.fst hkv
    obtain ⟨kv2, hkv2, hk2⟩ := List.mem_map.mp hmem
    have := (List.mem_filter.mp hkv2).2
    rw [hk2, hkk] at this
    simp at this
  have hlook : ∀ k, lowered.lookup k
      = ((props.filter (fun kv => kv.1 != "children")).lookup k).bind
          lowerPropertyValue :=
    set_properties_go_lookup w _ t t2 lowered h
  have hfl : ∀ k, k ≠ "children" →
      (props.filter (fun kv => kv.1 != "children")).lookup k = props.lookup k := by
    intro k hk
    rw [lookup_filter_key (fun key => key != "children")]
    simp [hk]
  have hzero : ∀ k, (dbusUiPropertyContainerOfProps lowered).zero.lookup k
      = (lowered.lookup k).bind dbusZeroValueOf :=
    fun k => lookup_keyedFilterMap dbusZeroValueOf lowered k hndlow
  have hone : ∀ k, (dbusUiPropertyContainerOfProps lowered).one.lookup k
      = (lowered.lookup k).bind dbusOneValueOf :=
    fun k => lookup_keyedFilterMap dbusOneValueOf lowered k hndlow
  refine ⟨⟨?_, ?_⟩, ?_, ?_, ?_, ?_⟩
  · exact lookup_keyedFilterMap_of_not_mem dbusZeroValueOf lowered "children" hnochild
  · exact lookup_keyedFilterMap_of_not_mem dbusOneValueOf lowered "children" hnochild
  · intro k f hkv hk
    have hl : lowered.lookup k = some UiPropertyValue.function := by
      rw [hlook k, hfl k hk, hkv]; rfl
    rw [hzero k, hone k, hl]
    exact ⟨rfl, rfl⟩
  · intro k s hkv hk
    have hl : lowered.lookup k = some (UiPropertyValue.string s) := by
      rw [hlook k, hfl k hk, hkv]; rfl
    rw [hzero k, hone k, hl]
    exact ⟨rfl, rfl⟩
  · intro k n hkv hk
    have hl : lowered.lookup k = some (UiPropertyValue.number n) := by
      rw [hlook k, hfl k hk, hkv]; rfl
    rw [hzero k, hone k, hl]
    exact ⟨rfl, rfl⟩
  · intro k b hkv hk
    have hl : lowered.lookup k = some (UiPropertyValue.bool b) := by
      rw [hlook k, hfl k hk, hkv]; rfl
    rw [hzero k, hone k, hl]
    exact ⟨rfl, rfl⟩

/-- C5 witness: a map with a function property, a string property and a children
property; the function key lands in the zero map only. -/
theorem set_properties_container_split_witness :
    (dbusUiPropertyContainerOfProps
        [("onClick", UiPropertyValue.function),
         ("title", UiPropertyValue.string "x")]).zero.lookup "onClick"
      = some DBusUiPropertyZeroValue.function
    ∧ (dbusUiPropertyContainerOfProps
        [("onClick", UiPropertyValue.function),
         ("title", UiPropertyValue.string "x")]).one.lookup "onClick" = none :=
  (set_properties_container_split EventHandlerTable.empty
      (add_listener EventHandlerTable.empty 1 "onClick" 5) 1
      [("onClick", JsValue.function 5), ("title", JsValue.string "x"),
       ("children", JsValue.object)]
      [("onClick", UiPropertyValue.function), ("title", UiPropertyValue.string "x")]
      (by decide) rfl).2.1 "onClick" 5 rfl (by decide)

/-- Entrypoint inserts inside the transaction leave the plugin table alone and
only append to the entrypoint table, in order. -/
theorem insertEntrypoints_ok (pluginId : String) :
    ∀ (es : List DbWritePluginEntrypoint) (s s2 : DbState),
      insertEntrypoints pluginId es s = .ok s2 →
      s2.plugin = s.plugin
      ∧ s2.plugin_entrypoint
          = s.plugin_entrypoint ++ es.map (entrypointRowOfWrite pluginId) := by
  intro es
  induction es with
  | nil =>
    intro s s2 h
    simp only [insertEntrypoints, Except.ok.injEq] at h
    rw [← h]
    simp
  | cons e rest ih =>
    intro s s2 h
    rw [insertEntrypoints] at h
    cases hIns : insertEntrypointRow s (entrypointRowOfWrite pluginId e) with
    | error err => rw [hIns] at h; cases h
    | ok s1 =>
      rw [hIns] at h
      obtain ⟨h1, h2⟩ := ih s1 s2 h
      unfold insertEntrypointRow at hIns
      by_cases hc : (s.plugin_entrypoint.any (fun r =>
          r.id == (entrypointRowOfWrite pluginId e).id
            && r.plugin_id == (entrypointRowOfWrite pluginId e).plugin_id)) = true
      · rw [if_pos hc] at hIns; cases hIns
      · rw [if_neg hc] at hIns
        injection hIns with hs1
        rw [← hs1] at h1 h2
        refine ⟨h1, ?_⟩
        rw [h2]
        change s.plugin_entrypoint ++ [entrypointRowOfWrite pluginId e]
            ++ rest.map (entrypointRowOfWrite pluginId) = _
        rw [List.append_assoc]
        rfl

/-- Characterization of a successful insert sequence of save_plugin: the plugin id
was fresh and both tables only gained the new rows. -/
theorem save_plugin_inserts_ok (s : DbState) (p : DbWritePlugin) (s2 : DbState)
    (h : save_plugin_inserts s p = .ok s2) :
    (s.plugin.any (fun r => r.id == p.id)) = false
    ∧ s2.plugin = s.plugin ++ [pluginRowOfWrite p]
    ∧ s2.plugin_entrypoint
        = s.plugin_entrypoint ++ p.entrypoints.map (entrypointRowOfWrite p.id) := by
  unfold save_plugin_inserts at h
  cases hp : insertPluginRow s (pluginRowOfWrite p) with
  | error err => rw [hp] at h; cases h
  | ok s1 =>
    rw [hp] at h
    unfold insertPluginRow at hp
    by_cases hc : (s.plugin.any (fun r => r.id == (pluginRowOfWrite p).id)) = true
    · rw [if_pos hc] at hp; cases hp
    · rw [if_neg hc] at hp
      injection hp with hs1
      obtain ⟨h1, h2⟩ := insertEntrypoints_ok p.id p.entrypoints s1 s2 h
      rw [← hs1] at h1 h2
      exact ⟨by simpa using hc, h1, h2⟩

/-- C7: save_plugin is transactional: when it succeeds,
list_plugins_and_entrypoints yields the saved plugin row paired with exactly the
supplied entrypoint rows, and when any insert fails the database state is
unchanged, so neither the plugin nor any of its entrypoints is observable. -/
theorem save_plugin_transactional (s : DbState) (p : DbWritePlugin)
    (hIntegrity : ∀ e ∈ s.plugin_entrypoint, ∃ q ∈ s.plugin, q.id = e.plugin_id) :
    ((save_plugin s p).2 = true →
      (pluginRowOfWrite p, p.entrypoints.map (entrypointRowOfWrite p.id))
        ∈ list_plugins_and_entrypoints (save_plugin s p).1)
    ∧ ((save_plugin s p).2 = false → (save_plugin s p).1 = s) := by
  cases hsp : save_plugin_inserts s p with
  | error err =>
    have heq : save_plugin s p = (s, false) := by
      unfold save_plugin; rw [hsp]
    rw [heq]
    exact ⟨(fun h => nomatch h), fun _ => rfl⟩
  | ok s2 =>
    have heq : save_plugin s p = (s2, true) := by
      unfold save_plugin; rw [hsp]
    rw [heq]
    obtain ⟨hfresh, hpl, hpe⟩ := save_plugin_inserts_ok s p s2 hsp
    refine ⟨fun _ => ?_, (fun h => nomatch h)⟩
    have hfreshAll : ∀ q ∈ s.plugin, q.id ≠ p.id := by
      intro q hq
      have := List.any_eq_false.mp hfresh q hq
      simp at this
      exact this
    have hold : s.plugin_entrypoint.filter
        (fun r => r.plugin_id == (pluginRowOfWrite p).id) = [] := by
      rw [List.filter_eq_nil_iff]
      intro e he
      obtain ⟨q, hq, hqe⟩ := hIntegrity e he
      have hne : e.plugin_id ≠ p.id := fun hcontra =>
        hfreshAll q hq (by rw [hqe, hcontra])
      simpa using hne
    have hnew : (p.entrypoints.map (entrypointRowOfWrite p.id)).filter
        (fun r => r.plugin_id == (pluginRowOfWrite p).id)
          = p.entrypoints.map (entrypointRowOfWrite p.id) := by
      rw [List.filter_eq_self]
      intro r hr
      obtain ⟨e, he, hre⟩ := List.mem_map.mp hr
      rw [← hre]
      simp [entrypointRowOfWrite, pluginRowOfWrite]
    unfold list_plugins_and_entrypoints list_plugins get_entrypoints_by_plugin_id
    rw [hpl, hpe]
    simp [List.filter_append, hold, hnew]

/-- C7 witness: saving the demo plugin into the empty database succeeds and the
listing contains it with exactly its entrypoint row. -/
theorem save_plugin_transactional_witness :
    (pluginRowOfWrite demoWritePlugin,
      demoWritePlugin.entrypoints.map (entrypointRowOfWrite demoWritePlugin.id))
      ∈ list_plugins_and_entrypoints (save_plugin ⟨[], []⟩ demoWritePlugin).1 :=
  (save_plugin_transactional ⟨[], []⟩ demoWritePlugin (by simp)).1 rfl

end Gauntlet
